import Mathlib

/-!
Verification development for the particle-flight repository.

The development shallowly embeds the two simulation subsystems:

* the `FlightController` class of the flight-control module
  (`src/unnamed/part_000`) — vehicle state, per-step update, camera rig —
  over real arithmetic (`ℝ`), with the three.js vector/quaternion/euler
  helper routines it calls translated from the three.js sources;
* the `SimplexNoise` class and `getTerrainHeight` of `src/terrain.js`.
  The seeded constructor is embedded over `ℚ` (exact JavaScript number
  arithmetic for the magnitudes involved, including the `Uint8Array`
  semantics of reads/writes at non-integral indices), while `noise2D`,
  `fbm` and `getTerrainHeight` are embedded over `ℝ`.

All definitions are translated from the source files; theorems at the end
settle the frozen claims.
-/

namespace PF

/-! ### Scalar helpers (three.js MathUtils and JS Math) -/

/-- Embeds `THREE.MathUtils.clamp(value, min, max) = Math.max(min, Math.min(max, value))`. -/
noncomputable def clampR (value lo hi : ℝ) : ℝ := max lo (min hi value)

/-- Embeds `THREE.MathUtils.lerp(x, y, t) = (1 - t) * x + t * y`. -/
noncomputable def lerpR (x y t : ℝ) : ℝ := (1 - t) * x + t * y

/-- Embeds `THREE.MathUtils.damp(x, y, lambda, dt) = lerp(x, y, 1 - exp(-lambda * dt))`. -/
noncomputable def dampR (x y lambda dt : ℝ) : ℝ := lerpR x y (1 - Real.exp (-lambda * dt))

/-- Embeds `THREE.MathUtils.degToRad(d) = d * π / 180`. -/
noncomputable def degToRad (d : ℝ) : ℝ := d * Real.pi / 180

/-- Embeds `Math.atan2(y, x)` (JS semantics on the reals; `atan2(0, 0) = 0`). -/
noncomputable def atan2 (y x : ℝ) : ℝ :=
  if 0 < x then Real.arctan (y / x)
  else if x < 0 then
    (if 0 ≤ y then Real.arctan (y / x) + Real.pi else Real.arctan (y / x) - Real.pi)
  else
    (if 0 < y then Real.pi / 2 else if y < 0 then -(Real.pi / 2) else 0)

/-! ### Vectors (`THREE.Vector3`) -/

/-- A three.js `Vector3` over the reals. -/
structure Vec3 where
  x : ℝ
  y : ℝ
  z : ℝ


namespace Vec3

@[ext] theorem ext_xyz {a b : Vec3} (hx : a.x = b.x) (hy : a.y = b.y) (hz : a.z = b.z) :
    a = b := by
  cases a; cases b; simp_all

def zero : Vec3 := ⟨0, 0, 0⟩

noncomputable def add (a b : Vec3) : Vec3 := ⟨a.x + b.x, a.y + b.y, a.z + b.z⟩

noncomputable def sub (a b : Vec3) : Vec3 := ⟨a.x - b.x, a.y - b.y, a.z - b.z⟩

/-- Embeds `Vector3.multiplyScalar(c)`. -/
noncomputable def scale (c : ℝ) (a : Vec3) : Vec3 := ⟨c * a.x, c * a.y, c * a.z⟩

/-- Embeds `Vector3.addScaledVector(v, s)`. -/
noncomputable def addScaled (a v : Vec3) (s : ℝ) : Vec3 := a.add (scale s v)

noncomputable def dot (a b : Vec3) : ℝ := a.x * b.x + a.y * b.y + a.z * b.z

/-- Embeds `Vector3.crossVectors(a, b)`. -/
noncomputable def cross (a b : Vec3) : Vec3 :=
  ⟨a.y * b.z - a.z * b.y, a.z * b.x - a.x * b.z, a.x * b.y - a.y * b.x⟩

noncomputable def lengthSq (a : Vec3) : ℝ := a.x * a.x + a.y * a.y + a.z * a.z

noncomputable def length (a : Vec3) : ℝ := Real.sqrt a.lengthSq

/-- Embeds `Vector3.normalize()` divides by `length || 1`, so the zero vector is unchanged. -/
noncomputable def normalize (a : Vec3) : Vec3 :=
  if a.length = 0 then a else scale (1 / a.length) a

/-- Embeds `Vector3.setLength(l) = normalize().multiplyScalar(l)`. -/
noncomputable def setLength (a : Vec3) (l : ℝ) : Vec3 := scale l a.normalize

/-- Embeds `Vector3.lerp(v, t)` componentwise; used by `dampVector`. -/
noncomputable def lerpV (a b : Vec3) (t : ℝ) : Vec3 :=
  ⟨a.x + (b.x - a.x) * t, a.y + (b.y - a.y) * t, a.z + (b.z - a.z) * t⟩

end Vec3

/-! ### Quaternions (`THREE.Quaternion`) -/

/-- A three.js `Quaternion` over the reals, components `(x, y, z, w)`. -/
structure Quat where
  x : ℝ
  y : ℝ
  z : ℝ
  w : ℝ


namespace Quat

@[ext] theorem ext_xyzw {a b : Quat}
    (hx : a.x = b.x) (hy : a.y = b.y) (hz : a.z = b.z) (hw : a.w = b.w) : a = b := by
  cases a; cases b; simp_all

def one : Quat := ⟨0, 0, 0, 1⟩

noncomputable def normSq (q : Quat) : ℝ := q.x * q.x + q.y * q.y + q.z * q.z + q.w * q.w

noncomputable def normQ (q : Quat) : ℝ := Real.sqrt q.normSq

/-- Embeds `Quaternion.multiplyQuaternions(a, b)` (Hamilton product, `a * b`). -/
noncomputable def mul (a b : Quat) : Quat :=
  ⟨a.x * b.w + a.w * b.x + a.y * b.z - a.z * b.y,
   a.y * b.w + a.w * b.y + a.z * b.x - a.x * b.z,
   a.z * b.w + a.w * b.z + a.x * b.y - a.y * b.x,
   a.w * b.w - a.x * b.x - a.y * b.y - a.z * b.z⟩

/-- Embeds `Quaternion.invert()` (conjugation; assumes unit length as three.js does). -/
noncomputable def invert (q : Quat) : Quat := ⟨-q.x, -q.y, -q.z, q.w⟩

/-- Embeds `Quaternion.setFromAxisAngle(axis, angle)`; the axis is assumed normalized. -/
noncomputable def fromAxisAngle (axis : Vec3) (angle : ℝ) : Quat :=
  ⟨axis.x * Real.sin (angle / 2), axis.y * Real.sin (angle / 2),
   axis.z * Real.sin (angle / 2), Real.cos (angle / 2)⟩

/-- Embeds `Quaternion.normalize()`; a zero quaternion becomes the identity. -/
noncomputable def normalizeQ (q : Quat) : Quat :=
  if q.normQ = 0 then ⟨0, 0, 0, 1⟩
  else ⟨q.x / q.normQ, q.y / q.normQ, q.z / q.normQ, q.w / q.normQ⟩

end Quat

/-- Embeds `Vector3.applyQuaternion(q)`:
`t = 2 * cross(q.xyz, v)`, result `v + q.w * t + cross(q.xyz, t)`. -/
noncomputable def Vec3.applyQuaternion (v : Vec3) (q : Quat) : Vec3 :=
  let tx := 2 * (q.y * v.z - q.z * v.y)
  let ty := 2 * (q.z * v.x - q.x * v.z)
  let tz := 2 * (q.x * v.y - q.y * v.x)
  ⟨v.x + q.w * tx + q.y * tz - q.z * ty,
   v.y + q.w * ty + q.z * tx - q.x * tz,
   v.z + q.w * tz + q.x * ty - q.y * tx⟩

/-! Norm lemmas used for the unit-quaternion invariant. -/

theorem Quat.normSq_mul (a b : Quat) : (a.mul b).normSq = a.normSq * b.normSq := by
  simp only [Quat.mul, Quat.normSq]
  ring

theorem Quat.normSq_fromAxisAngle (axis : Vec3) (angle : ℝ)
    (h : axis.lengthSq = 1) : (Quat.fromAxisAngle axis angle).normSq = 1 := by
  simp only [Quat.fromAxisAngle, Quat.normSq, Vec3.lengthSq] at *
  have hs := Real.sin_sq_add_cos_sq (angle / 2)
  nlinarith [hs]

theorem Vec3.lengthSq_applyQuaternion (v : Vec3) (q : Quat) (hq : q.normSq = 1) :
    (v.applyQuaternion q).lengthSq = v.lengthSq := by
  simp only [Vec3.applyQuaternion, Vec3.lengthSq, Quat.normSq] at *
  linear_combination
    (4 * ((q.x ^ 2 + q.y ^ 2 + q.z ^ 2) * (v.x ^ 2 + v.y ^ 2 + v.z ^ 2) -
      (q.x * v.x + q.y * v.y + q.z * v.z) ^ 2)) * hq

/-! ### Euler extraction (`THREE.Euler.setFromQuaternion`, order YXZ)

three.js converts the quaternion to a rotation matrix
(`Matrix4.makeRotationFromQuaternion`) and reads the YXZ angles off the
matrix entries. -/

/-- Entries of the rotation matrix of `q` (three.js `compose` layout),
returned as `(m11, m12, m13, m21, m22, m23, m31, m32, m33)`. -/
noncomputable def rotMatrixEntries (q : Quat) :
    ℝ × ℝ × ℝ × ℝ × ℝ × ℝ × ℝ × ℝ × ℝ :=
  let x2 := q.x + q.x
  let y2 := q.y + q.y
  let z2 := q.z + q.z
  let xx := q.x * x2
  let xy := q.x * y2
  let xz := q.x * z2
  let yy := q.y * y2
  let yz := q.y * z2
  let zz := q.z * z2
  let wx := q.w * x2
  let wy := q.w * y2
  let wz := q.w * z2
  (1 - (yy + zz), xy - wz, xz + wy,
   xy + wz, 1 - (xx + zz), yz - wx,
   xz - wy, yz + wx, 1 - (xx + yy))

/-- Embeds `Euler.setFromRotationMatrix` for order YXZ, as `(x, y, z)` angles. -/
noncomputable def eulerYXZ (q : Quat) : ℝ × ℝ × ℝ :=
  let m := rotMatrixEntries q
  let m11 := m.1
  let m13 := m.2.2.1
  let m21 := m.2.2.2.1
  let m22 := m.2.2.2.2.1
  let m23 := m.2.2.2.2.2.1
  let m31 := m.2.2.2.2.2.2.1
  let m33 := m.2.2.2.2.2.2.2.2
  let ex := Real.arcsin (-(clampR m23 (-1) 1))
  if |m23| < 0.9999999 then (ex, atan2 m13 m33, atan2 m21 m22)
  else (ex, atan2 (-m31) m11, 0)

/-! ### `Object3D.lookAt` (camera branch) and `Quaternion.slerp` -/

/-- Embeds `Quaternion.setFromRotationMatrix` applied to the basis
`(xb, yb, zb)` produced by `Matrix4.lookAt` (columns of the matrix). -/
noncomputable def quatFromBasis (xb yb zb : Vec3) : Quat :=
  let m11 := xb.x
  let m12 := yb.x
  let m13 := zb.x
  let m21 := xb.y
  let m22 := yb.y
  let m23 := zb.y
  let m31 := xb.z
  let m32 := yb.z
  let m33 := zb.z
  let trace := m11 + m22 + m33
  if 0 < trace then
    let s := 0.5 / Real.sqrt (trace + 1)
    ⟨(m32 - m23) * s, (m13 - m31) * s, (m21 - m12) * s, 0.25 / s⟩
  else if m22 < m11 ∧ m33 < m11 then
    let s := 2 * Real.sqrt (1 + m11 - m22 - m33)
    ⟨0.25 * s, (m12 + m21) / s, (m13 + m31) / s, (m32 - m23) / s⟩
  else if m33 < m22 then
    let s := 2 * Real.sqrt (1 + m22 - m11 - m33)
    ⟨(m12 + m21) / s, 0.25 * s, (m23 + m32) / s, (m13 - m31) / s⟩
  else
    let s := 2 * Real.sqrt (1 + m33 - m11 - m22)
    ⟨(m13 + m31) / s, (m23 + m32) / s, 0.25 * s, (m21 - m12) / s⟩

/-- Embeds `Matrix4.lookAt(eye, target, up)` followed by
`Quaternion.setFromRotationMatrix`; this is what `camera.lookAt(target)`
does (eye is the camera position, up is `(0, 1, 0)`). -/
noncomputable def lookAtQuat (eye target up : Vec3) : Quat :=
  let z0 := eye.sub target
  let z1 := if z0.lengthSq = 0 then ⟨z0.x, z0.y, 1⟩ else z0
  let z2 := z1.normalize
  let x0 := up.cross z2
  let z3 := if x0.lengthSq = 0 then
      (if |up.z| = 1 then (⟨z2.x + 0.0001, z2.y, z2.z⟩ : Vec3)
       else ⟨z2.x, z2.y, z2.z + 0.0001⟩).normalize
    else z2
  let x1 := if x0.lengthSq = 0 then up.cross z3 else x0
  let xb := x1.normalize
  let yb := z3.cross xb
  quatFromBasis xb yb z3

/-- Embeds `Number.EPSILON` (2⁻⁵²). -/
noncomputable def numberEpsilon : ℝ := 1 / 4503599627370496

/-- Embeds `Quaternion.slerp(qb, t)` on `qa`. -/
noncomputable def slerpQ (qa qb : Quat) (t : ℝ) : Quat :=
  if t = 0 then qa
  else if t = 1 then qb
  else
    let cosHalfTheta0 := qa.w * qb.w + qa.x * qb.x + qa.y * qb.y + qa.z * qb.z
    let target := if cosHalfTheta0 < 0 then (⟨-qb.x, -qb.y, -qb.z, -qb.w⟩ : Quat) else qb
    let cosHalfTheta := if cosHalfTheta0 < 0 then -cosHalfTheta0 else cosHalfTheta0
    if 1 ≤ cosHalfTheta then qa
    else
      let sqrSinHalfTheta := 1 - cosHalfTheta * cosHalfTheta
      if sqrSinHalfTheta ≤ numberEpsilon then
        Quat.normalizeQ ⟨(1 - t) * qa.x + t * target.x, (1 - t) * qa.y + t * target.y,
          (1 - t) * qa.z + t * target.z, (1 - t) * qa.w + t * target.w⟩
      else
        let sinHalfTheta := Real.sqrt sqrSinHalfTheta
        let halfTheta := atan2 sinHalfTheta cosHalfTheta
        let rA := Real.sin ((1 - t) * halfTheta) / sinHalfTheta
        let rB := Real.sin (t * halfTheta) / sinHalfTheta
        ⟨qa.x * rA + target.x * rB, qa.y * rA + target.y * rB,
         qa.z * rA + target.z * rB, qa.w * rA + target.w * rB⟩

/-! ### FlightController configuration constants (from the constructor) -/

noncomputable def minSpeed : ℝ := 70

noncomputable def stallSpeed : ℝ := 95

noncomputable def cruiseSpeed : ℝ := 260

noncomputable def maxSpeed : ℝ := 360

noncomputable def afterburnerSpeed : ℝ := 470

noncomputable def mouseSensitivity : ℝ := 0.0022

noncomputable def stickReturn : ℝ := 7.0

noncomputable def inputExpo : ℝ := 0.35

noncomputable def maxPitchRate : ℝ := degToRad 220

noncomputable def maxRollRate : ℝ := degToRad 300

noncomputable def maxYawRate : ℝ := degToRad 120

noncomputable def pitchResponse : ℝ := 7.5

noncomputable def rollResponse : ℝ := 9.0

noncomputable def yawResponse : ℝ := 5.5

noncomputable def rollStability : ℝ := 2.6

noncomputable def alphaStability : ℝ := 2.2

noncomputable def betaStability : ℝ := 2.0

noncomputable def rollToYaw : ℝ := 0.9

noncomputable def yawDamping : ℝ := 1.8

noncomputable def pitchDamping : ℝ := 2.8

noncomputable def rollDamping : ℝ := 2.4

noncomputable def flightPathHoldGain : ℝ := 1.6

noncomputable def flightPathHoldMax : ℝ := degToRad 10

noncomputable def aoaLimit : ℝ := degToRad 18

noncomputable def aoaLimiterGain : ℝ := 14.0

noncomputable def gravity : ℝ := 9.81

noncomputable def liftScalar : ℝ := 0.0010

noncomputable def dragScalar : ℝ := 0.00125

noncomputable def sideScalar : ℝ := 0.0007

noncomputable def cl0 : ℝ := 0.2

noncomputable def clAlpha : ℝ := 4.8

noncomputable def clMax : ℝ := 1.5

noncomputable def cd0 : ℝ := 0.02

noncomputable def cdAlpha : ℝ := 0.3

noncomputable def cdInduced : ℝ := 0.12

noncomputable def stallAoA : ℝ := degToRad 18

noncomputable def stallFade : ℝ := degToRad 12

noncomputable def stallDrag : ℝ := 0.7

noncomputable def cyBeta : ℝ := 0.8

noncomputable def cyMax : ℝ := 1.0

noncomputable def throttleRate : ℝ := 0.55

noncomputable def idleThrust : ℝ := 2.0

noncomputable def maxThrust : ℝ := 15.0

noncomputable def afterburnerThrust : ℝ := 12.0

noncomputable def afterburnerBurnRate : ℝ := 0.28

noncomputable def afterburnerRegenRate : ℝ := 0.18

noncomputable def velocityAlign : ℝ := 0.35

noncomputable def cameraLag : ℝ := 6.0

/-! ### Telemetry and controller state -/

/-- The `telemetry` record of `FlightController`. -/
structure Telemetry where
  speed : ℝ
  throttle : ℝ
  thrust : ℝ
  aoa : ℝ
  beta : ℝ
  gForce : ℝ
  cl : ℝ
  cd : ℝ
  cy : ℝ
  lift : ℝ
  drag : ℝ
  side : ℝ
  stall : ℝ
  authority : ℝ
  pitchRate : ℝ
  rollRate : ℝ
  yawRate : ℝ

/-- Full mutable state owned (or driven) by `FlightController`: the airplane
pose of the airplane object, the camera, the control inputs, and every instance field the
`update` step reads or writes. -/
structure State where
  position : Vec3
  quaternion : Quat
  camPos : Vec3
  camQuat : Quat
  camFov : ℝ
  throttle : ℝ
  yawInput : ℝ
  boost : Bool
  invertY : Bool
  stickX : ℝ
  stickY : ℝ
  pitch : ℝ
  roll : ℝ
  yaw : ℝ
  speed : ℝ
  pitchRate : ℝ
  rollRate : ℝ
  yawRate : ℝ
  throttleSetting : ℝ
  afterburnerFuel : ℝ
  afterburnerActive : Bool
  gForceSmoothed : ℝ
  cameraMode : ℕ
  cameraOffset : Vec3
  cameraTarget : Vec3
  velocity : Vec3
  prevVelocity : Vec3
  telemetry : Telemetry

/-- State after `new FlightController(airplane, camera)` with the airplane
from `createAirplane()` (position `(0, 50, 0)`, identity orientation) and the
camera from `main.js` (position `(0, 50, 0)`, fov 75). -/
noncomputable def initState : State where
  position := ⟨0, 50, 0⟩
  quaternion := ⟨0, 0, 0, 1⟩
  camPos := ⟨0, 50, 0⟩
  camQuat := ⟨0, 0, 0, 1⟩
  camFov := 75
  throttle := 0
  yawInput := 0
  boost := false
  invertY := false
  stickX := 0
  stickY := 0
  pitch := 0
  roll := 0
  yaw := 0
  speed := cruiseSpeed
  pitchRate := 0
  rollRate := 0
  yawRate := 0
  throttleSetting := 0.6
  afterburnerFuel := 1.0
  afterburnerActive := false
  gForceSmoothed := 1.0
  cameraMode := 0
  cameraOffset := ⟨0, 0, 0⟩
  cameraTarget := ⟨0, 0, 0⟩
  velocity := Vec3.scale cruiseSpeed ⟨0, 0, -1⟩
  prevVelocity := Vec3.scale cruiseSpeed ⟨0, 0, -1⟩
  telemetry :=
    { speed := cruiseSpeed, throttle := 0.6, thrust := 0, aoa := 0, beta := 0,
      gForce := 1, cl := 0, cd := 0, cy := 0, lift := 0, drag := 0, side := 0,
      stall := 0, authority := 0, pitchRate := 0, rollRate := 0, yawRate := 0 }

/-! ### The `update(delta)` step, stage by stage

Each definition below embeds a contiguous slice of `FlightController.update`;
the slices are composed by `updateCore`. Stages that reuse an earlier value
recompute it through the earlier stage function (the embedding is pure). -/

/-- Embeds `const dt = Math.min(delta, 0.05)`. -/
noncomputable def dtOf (delta : ℝ) : ℝ := min delta 0.05

/-- Embeds `this.stickX = damp(this.stickX, 0, this.stickReturn, dt)`. -/
noncomputable def stickX1 (s : State) (delta : ℝ) : ℝ :=
  dampR s.stickX 0 stickReturn (dtOf delta)

/-- Embeds `this.stickY = damp(this.stickY, 0, this.stickReturn, dt)`. -/
noncomputable def stickY1 (s : State) (delta : ℝ) : ℝ :=
  dampR s.stickY 0 stickReturn (dtOf delta)

/-- Deadzone: inputs of magnitude below 0.02 are treated as zero. -/
noncomputable def rollInput (s : State) (delta : ℝ) : ℝ :=
  if |stickX1 s delta| < 0.02 then 0 else stickX1 s delta

noncomputable def pitchInput (s : State) (delta : ℝ) : ℝ :=
  if |stickY1 s delta| < 0.02 then 0 else stickY1 s delta

/-- Embeds `Math.sign(x) * Math.pow(Math.abs(x), 1 + this.inputExpo)`. -/
noncomputable def shapeInput (x : ℝ) : ℝ := Real.sign x * |x| ^ ((1 : ℝ) + inputExpo)

noncomputable def rollShaped (s : State) (delta : ℝ) : ℝ := shapeInput (rollInput s delta)

noncomputable def pitchShaped (s : State) (delta : ℝ) : ℝ := shapeInput (pitchInput s delta)

/-- Vehicle axes before the rotation update (lines 201–203). -/
noncomputable def right0 (s : State) : Vec3 := Vec3.applyQuaternion ⟨1, 0, 0⟩ s.quaternion

noncomputable def up0 (s : State) : Vec3 := Vec3.applyQuaternion ⟨0, 1, 0⟩ s.quaternion

noncomputable def forward0 (s : State) : Vec3 := Vec3.applyQuaternion ⟨0, 0, -1⟩ s.quaternion

/-- Embeds `const speed = this._velocity.length()`. -/
noncomputable def speed0 (s : State) : ℝ := s.velocity.length

/-- Embeds `this._velLocal = this._velocity.applyQuaternion(invert(quaternion))`. -/
noncomputable def velLocal0 (s : State) : Vec3 :=
  s.velocity.applyQuaternion s.quaternion.invert

/-- Embeds `const aoa = Math.atan2(-velLocal.y, -velLocal.z)`. -/
noncomputable def aoa0 (s : State) : ℝ := atan2 (-(velLocal0 s).y) (-(velLocal0 s).z)

/-- Embeds `const beta = Math.atan2(velLocal.x, -velLocal.z)`. -/
noncomputable def beta0 (s : State) : ℝ := atan2 (velLocal0 s).x (-(velLocal0 s).z)

/-- Embeds `const authority = clamp(speed / this.cruiseSpeed, 0.35, 1.4)`. -/
noncomputable def authority (s : State) : ℝ := clampR (speed0 s / cruiseSpeed) 0.35 1.4

/-- Embeds `const desiredRollRate = rollShaped * this.maxRollRate * authority`. -/
noncomputable def desiredRollRate (s : State) (delta : ℝ) : ℝ :=
  rollShaped s delta * maxRollRate * authority s

/-- Desired pitch rate before the angle-of-attack limiter. -/
noncomputable def desiredPitchRate0 (s : State) (delta : ℝ) : ℝ :=
  pitchShaped s delta * maxPitchRate * authority s

/-- Embeds `if (aoa > this.aoaLimit) desiredPitchRate = Math.min(desiredPitchRate, 0)`. -/
noncomputable def desiredPitchRateA (s : State) (delta : ℝ) : ℝ :=
  if aoa0 s > aoaLimit then min (desiredPitchRate0 s delta) 0 else desiredPitchRate0 s delta

/-- Embeds `if (aoa < -this.aoaLimit) desiredPitchRate = Math.max(desiredPitchRate, 0)`. -/
noncomputable def desiredPitchRateL (s : State) (delta : ℝ) : ℝ :=
  if aoa0 s < -aoaLimit then max (desiredPitchRateA s delta) 0 else desiredPitchRateA s delta

/-- Embeds `const desiredYawRate = this.yawInput * this.maxYawRate * authority`. -/
noncomputable def desiredYawRate (s : State) : ℝ := s.yawInput * maxYawRate * authority s

/-- Roll acceleration: rate tracking plus stability and damping terms. -/
noncomputable def rollAccelV (s : State) (delta : ℝ) : ℝ :=
  (desiredRollRate s delta - s.rollRate) * rollResponse
    + (-s.roll * rollStability - s.rollRate * rollDamping)

/-- Embeds `const horizSpeed = Math.max(Math.hypot(velocity.x, velocity.z), 1)`. -/
noncomputable def horizSpeed (s : State) : ℝ :=
  max (Real.sqrt (s.velocity.x ^ 2 + s.velocity.z ^ 2)) 1

/-- Embeds `const flightPathAngle = Math.atan2(velocity.y, horizSpeed)`. -/
noncomputable def flightPathAngle (s : State) : ℝ := atan2 s.velocity.y (horizSpeed s)

/-- Embeds `const holdBlend = clamp(1 - Math.abs(pitchShaped) * 1.6, 0, 1)`. -/
noncomputable def holdBlend (s : State) (delta : ℝ) : ℝ :=
  clampR (1 - |pitchShaped s delta| * 1.6) 0 1

/-- Embeds `const holdCorrection = clamp(-fpa * gain, -holdMax, holdMax)`. -/
noncomputable def holdCorrection (s : State) : ℝ :=
  clampR (-flightPathAngle s * flightPathHoldGain) (-flightPathHoldMax) flightPathHoldMax

/-- Extra restoring pitch acceleration from the AoA limiter (lines 241–245). -/
noncomputable def aoaLimiterAccel (s : State) : ℝ :=
  if aoa0 s > aoaLimit then (aoaLimit - aoa0 s) * aoaLimiterGain
  else if aoa0 s < -aoaLimit then (-aoaLimit - aoa0 s) * aoaLimiterGain
  else 0

/-- Pitch acceleration: tracking, stability, flight-path hold, AoA limiter. -/
noncomputable def pitchAccelV (s : State) (delta : ℝ) : ℝ :=
  (desiredPitchRateL s delta - s.pitchRate) * pitchResponse
    + (-aoa0 s * alphaStability - s.pitchRate * pitchDamping)
    + holdCorrection s * holdBlend s delta
    + aoaLimiterAccel s

/-- Yaw acceleration: tracking, stability, damping, coordinated-turn term. -/
noncomputable def yawAccelV (s : State) (_delta : ℝ) : ℝ :=
  (desiredYawRate s - s.yawRate) * yawResponse
    + (-beta0 s * betaStability - s.yawRate * yawDamping)
    + s.rollRate * rollToYaw * authority s

/-- Integrated and clamped angular rates (lines 248–254). -/
noncomputable def rollRate1 (s : State) (delta : ℝ) : ℝ :=
  clampR (s.rollRate + rollAccelV s delta * dtOf delta) (-maxRollRate) maxRollRate

noncomputable def pitchRate1 (s : State) (delta : ℝ) : ℝ :=
  clampR (s.pitchRate + pitchAccelV s delta * dtOf delta) (-maxPitchRate) maxPitchRate

noncomputable def yawRate1 (s : State) (delta : ℝ) : ℝ :=
  clampR (s.yawRate + yawAccelV s delta * dtOf delta) (-maxYawRate) maxYawRate

/-- Orientation after the pitch rotation (skipped when the rate is zero). -/
noncomputable def quatA (s : State) (delta : ℝ) : Quat :=
  if pitchRate1 s delta ≠ 0 then
    s.quaternion.mul (Quat.fromAxisAngle (right0 s) (pitchRate1 s delta * dtOf delta))
  else s.quaternion

/-- … then the roll rotation about the (pre-step) forward axis. -/
noncomputable def quatB (s : State) (delta : ℝ) : Quat :=
  if rollRate1 s delta ≠ 0 then
    (quatA s delta).mul (Quat.fromAxisAngle (forward0 s) (rollRate1 s delta * dtOf delta))
  else quatA s delta

/-- … then the yaw rotation about the (pre-step) up axis. -/
noncomputable def quat1 (s : State) (delta : ℝ) : Quat :=
  if yawRate1 s delta ≠ 0 then
    (quatB s delta).mul (Quat.fromAxisAngle (up0 s) (yawRate1 s delta * dtOf delta))
  else quatB s delta

/-- HUD angles extracted from the new orientation (lines 271–274). -/
noncomputable def euler1 (s : State) (delta : ℝ) : ℝ × ℝ × ℝ := eulerYXZ (quat1 s delta)

/-- Embeds `const wantsAfterburner = this.boost && this.afterburnerFuel > 0.02`. -/
noncomputable def wantsAfterburner (s : State) : Bool :=
  s.boost && decide ((0.02 : ℝ) < s.afterburnerFuel)

/-- Afterburner fuel drain / regeneration (lines 279–283). -/
noncomputable def fuel1 (s : State) (delta : ℝ) : ℝ :=
  if wantsAfterburner s then
    max 0 (s.afterburnerFuel - afterburnerBurnRate * dtOf delta)
  else
    min 1 (s.afterburnerFuel + afterburnerRegenRate * dtOf delta)

/-- Throttle ramp (lines 285–289). -/
noncomputable def throttleSetting1 (s : State) (delta : ℝ) : ℝ :=
  if 0 < s.throttle then clampR (s.throttleSetting + throttleRate * dtOf delta) 0 1
  else if s.throttle < 0 then clampR (s.throttleSetting - throttleRate * dtOf delta) 0 1
  else s.throttleSetting

/-- Vehicle axes recomputed from the new orientation (lines 292–294). -/
noncomputable def right1 (s : State) (delta : ℝ) : Vec3 :=
  Vec3.applyQuaternion ⟨1, 0, 0⟩ (quat1 s delta)

noncomputable def up1 (s : State) (delta : ℝ) : Vec3 :=
  Vec3.applyQuaternion ⟨0, 1, 0⟩ (quat1 s delta)

noncomputable def forward1 (s : State) (delta : ℝ) : Vec3 :=
  Vec3.applyQuaternion ⟨0, 0, -1⟩ (quat1 s delta)

/-- Embeds `const newSpeed = Math.max(this._velocity.length(), 1)` (still the
pre-step velocity). -/
noncomputable def newSpeed (s : State) : ℝ := max s.velocity.length 1

/-- Dynamic-pressure proxy `q = newSpeed * newSpeed`. -/
noncomputable def qdyn (s : State) : ℝ := newSpeed s * newSpeed s

/-- Velocity in the new vehicle frame (lines 300–301). -/
noncomputable def velLocal1 (s : State) (delta : ℝ) : Vec3 :=
  s.velocity.applyQuaternion (quat1 s delta).invert

noncomputable def aoaNow (s : State) (delta : ℝ) : ℝ :=
  atan2 (-(velLocal1 s delta).y) (-(velLocal1 s delta).z)

noncomputable def betaNow (s : State) (delta : ℝ) : ℝ :=
  atan2 (velLocal1 s delta).x (-(velLocal1 s delta).z)

/-- Embeds `const stallT = clamp((aoaAbs - stallAoA) / stallFade, 0, 1)`. -/
noncomputable def stallT (s : State) (delta : ℝ) : ℝ :=
  clampR ((|aoaNow s delta| - stallAoA) / stallFade) 0 1

/-- Lift coefficient with stall fade (lines 307–309). -/
noncomputable def clV (s : State) (delta : ℝ) : ℝ :=
  let cl := clampR (cl0 + clAlpha * aoaNow s delta) (-clMax) clMax
  lerpR cl (cl * 0.35) (stallT s delta)

/-- Drag coefficient (line 311). -/
noncomputable def cdV (s : State) (delta : ℝ) : ℝ :=
  cd0 + cdAlpha * |aoaNow s delta| + cdInduced * clV s delta * clV s delta
    + stallT s delta * stallDrag

/-- Side-force coefficient (line 312). -/
noncomputable def cyV (s : State) (delta : ℝ) : ℝ :=
  clampR (betaNow s delta * cyBeta) (-cyMax) cyMax

/-- Embeds `const velDir = velocity.normalize()` (into a temp; velocity unchanged). -/
noncomputable def velDir (s : State) : Vec3 := s.velocity.normalize

/-- Component of the up axis orthogonal to the velocity direction
(normalized when its squared length exceeds 0.0001). -/
noncomputable def liftDir (s : State) (delta : ℝ) : Vec3 :=
  let d := (up1 s delta).addScaled (velDir s) (-(up1 s delta).dot (velDir s))
  if 0.0001 < d.lengthSq then d.normalize else d

noncomputable def sideDir (s : State) (delta : ℝ) : Vec3 :=
  let d := (right1 s delta).addScaled (velDir s) (-(right1 s delta).dot (velDir s))
  if 0.0001 < d.lengthSq then d.normalize else d

noncomputable def liftAccelV (s : State) (delta : ℝ) : ℝ := liftScalar * qdyn s * clV s delta

noncomputable def dragAccelV (s : State) (delta : ℝ) : ℝ := dragScalar * qdyn s * cdV s delta

noncomputable def sideAccelV (s : State) (delta : ℝ) : ℝ := sideScalar * qdyn s * cyV s delta

/-- Embeds `thrustBase + afterburner bonus` (lines 331–332). -/
noncomputable def thrust1 (s : State) (delta : ℝ) : ℝ :=
  lerpR idleThrust maxThrust (throttleSetting1 s delta)
    + (if wantsAfterburner s then afterburnerThrust else 0)

/-- Total acceleration: lift, drag, side force, thrust, velocity-alignment
helper, gravity (lines 326–340). -/
noncomputable def accel1 (s : State) (delta : ℝ) : Vec3 :=
  let a0 := (Vec3.zero.addScaled (liftDir s delta) (liftAccelV s delta)).addScaled
    (velDir s) (-dragAccelV s delta)
  let a1 := a0.addScaled (sideDir s delta) (sideAccelV s delta)
  let a2 := a1.addScaled (forward1 s delta) (thrust1 s delta)
  let align := (Vec3.scale (newSpeed s) (forward1 s delta)).sub s.velocity
  let a3 := a2.addScaled align (velocityAlign * authority s)
  ⟨a3.x, a3.y - gravity, a3.z⟩

/-- Embeds `this._velocity.addScaledVector(this._accel, dt)` — the integrated
velocity before the magnitude clamp (line 343). -/
noncomputable def velInt (s : State) (delta : ℝ) : Vec3 :=
  s.velocity.addScaled (accel1 s delta) (dtOf delta)

/-- The speed clamp (lines 345–347): rescale to `minSpeed` when too slow and
to `afterburnerSpeed * 1.1` when too fast, both tested against the
pre-clamp magnitude. -/
noncomputable def clampVelocity (v : Vec3) : Vec3 :=
  let clampedSpeed := v.length
  let v1 := if clampedSpeed < minSpeed then v.setLength minSpeed else v
  if afterburnerSpeed * 1.1 < clampedSpeed then v1.setLength (afterburnerSpeed * 1.1) else v1

/-- Velocity after integration and clamp. -/
noncomputable def velNew (s : State) (delta : ℝ) : Vec3 := clampVelocity (velInt s delta)

noncomputable def speed1 (s : State) (delta : ℝ) : ℝ := (velNew s delta).length

/-- Embeds `this.airplane.position.addScaledVector(this._velocity, dt)`. -/
noncomputable def position1 (s : State) (delta : ℝ) : Vec3 :=
  s.position.addScaled (velNew s delta) (dtOf delta)

/-- Instantaneous specific-force G estimate (lines 353–355). -/
noncomputable def gForce1 (s : State) (delta : ℝ) : ℝ :=
  let dv := Vec3.scale (1 / dtOf delta) ((velNew s delta).sub s.prevVelocity)
  (dv.add ⟨0, gravity, 0⟩).dot (up1 s delta) / gravity

/-- Embeds `this.gForceSmoothed = damp(gForceSmoothed, clamp(gForce, -2, 9), 6, dt)`. -/
noncomputable def gForceSmoothed1 (s : State) (delta : ℝ) : ℝ :=
  dampR s.gForceSmoothed (clampR (gForce1 s delta) (-2) 9) 6 (dtOf delta)

/-- Telemetry written at the end of the step (lines 360–376). -/
noncomputable def telemetry1 (s : State) (delta : ℝ) : Telemetry where
  speed := speed1 s delta
  throttle := throttleSetting1 s delta
  thrust := thrust1 s delta
  aoa := aoaNow s delta
  beta := betaNow s delta
  gForce := gForceSmoothed1 s delta
  cl := clV s delta
  cd := cdV s delta
  cy := cyV s delta
  lift := liftAccelV s delta
  drag := dragAccelV s delta
  side := sideAccelV s delta
  stall := stallT s delta
  authority := authority s
  pitchRate := pitchRate1 s delta
  rollRate := rollRate1 s delta
  yawRate := yawRate1 s delta

/-! ### Camera rig (`updateCamera(dt)`) -/

/-- Camera offset in vehicle axes by framing mode, before the vehicle
position is added (lines 387–401). -/
noncomputable def camOffset1 (s : State) (delta : ℝ) : Vec3 :=
  if s.cameraMode = 0 then
    ((Vec3.scale (-38) (forward1 s delta)).addScaled (up1 s delta) 12).addScaled
      (right1 s delta) 2
  else if s.cameraMode = 1 then
    (Vec3.scale 1.8 (forward1 s delta)).addScaled (up1 s delta) 1.2
  else
    ((Vec3.scale 18 (right1 s delta)).addScaled (up1 s delta) 6).addScaled
      (forward1 s delta) (-6)

/-- Desired look-at target ahead of the vehicle, by framing mode. -/
noncomputable def camTarget1 (s : State) (delta : ℝ) : Vec3 :=
  if s.cameraMode = 0 then (position1 s delta).addScaled (forward1 s delta) 40
  else if s.cameraMode = 1 then (position1 s delta).addScaled (forward1 s delta) 120
  else (position1 s delta).addScaled (forward1 s delta) 30

/-- Embeds `this.cameraOffset.add(position)` followed by
`dampVector(camera.position, cameraOffset, cameraLag, dt)`. -/
noncomputable def camPos1 (s : State) (delta : ℝ) : Vec3 :=
  s.camPos.lerpV ((camOffset1 s delta).add (position1 s delta))
    (1 - Real.exp (-cameraLag * dtOf delta))

/-- Camera orientation: slerp toward the vehicle in cockpit mode, otherwise
`camera.lookAt(cameraTarget)` from the damped camera position. -/
noncomputable def camQuat1 (s : State) (delta : ℝ) : Quat :=
  if s.cameraMode = 1 then
    slerpQ s.camQuat (quat1 s delta) (1 - Real.exp (-dtOf delta * 10))
  else
    lookAtQuat (camPos1 s delta) (camTarget1 s delta) ⟨0, 1, 0⟩

/-- Embeds `camera.fov = damp(camera.fov, afterburnerActive ? 82 : 75, 4, dt)`. -/
noncomputable def camFov1 (s : State) (delta : ℝ) : ℝ :=
  dampR s.camFov (if wantsAfterburner s then 82 else 75) 4 (dtOf delta)

/-! ### The assembled step and the bad-delta guard -/

/-- The body of `update(delta)` after the guard: every mutation the step
performs, assembled from the stage functions. -/
noncomputable def updateCore (s : State) (delta : ℝ) : State where
  position := position1 s delta
  quaternion := quat1 s delta
  camPos := camPos1 s delta
  camQuat := camQuat1 s delta
  camFov := camFov1 s delta
  throttle := s.throttle
  yawInput := s.yawInput
  boost := s.boost
  invertY := s.invertY
  stickX := stickX1 s delta
  stickY := stickY1 s delta
  pitch := (euler1 s delta).1
  yaw := (euler1 s delta).2.1
  roll := (euler1 s delta).2.2
  speed := speed1 s delta
  pitchRate := pitchRate1 s delta
  rollRate := rollRate1 s delta
  yawRate := yawRate1 s delta
  throttleSetting := throttleSetting1 s delta
  afterburnerFuel := fuel1 s delta
  afterburnerActive := wantsAfterburner s
  gForceSmoothed := gForceSmoothed1 s delta
  cameraMode := s.cameraMode
  cameraOffset := (camOffset1 s delta).add (position1 s delta)
  cameraTarget := camTarget1 s delta
  velocity := velNew s delta
  prevVelocity := velNew s delta
  telemetry := telemetry1 s delta

/-- The JavaScript value passed to `update`: a number, `NaN`, `±Infinity`,
or `undefined` (absent argument). -/
inductive JSDelta where
  | num (r : ℝ)
  | nan
  | posInf
  | negInf
  | undef

/-- Embeds `update(delta)` with the guard
`if (!delta || !Number.isFinite(delta)) return;`: `0`, `NaN` and `undefined`
are falsy, and `NaN`, `±Infinity`, `undefined` are not finite, so only a
finite nonzero number reaches the step body. -/
noncomputable def updateJS (d : JSDelta) (s : State) : State :=
  match d with
  | .num r => if r = 0 then s else updateCore s r
  | _ => s

/-! External writes allowed between steps (from the input collaborators). -/

/-- Direct writes to `throttle` / `yawInput` / `boost` by the key handlers. -/
def setInputs (s : State) (t y : ℝ) (b : Bool) : State :=
  { s with throttle := t, yawInput := y, boost := b }

/-- Embeds `setInvertY(enabled)`. -/
def setInvertY (s : State) (b : Bool) : State := { s with invertY := b }

/-- Embeds `setCameraMode(mode)`. -/
def setCameraMode (s : State) (m : ℕ) : State := { s with cameraMode := m }

/-- Embeds `handleMouseMove(dx, dy)`. -/
noncomputable def handleMouseMove (s : State) (dx dy : ℝ) : State :=
  let pitchDir : ℝ := if s.invertY then 1 else -1
  { s with
    stickX := clampR (s.stickX + dx * mouseSensitivity) (-1) 1,
    stickY := clampR (s.stickY + dy * mouseSensitivity * pitchDir) (-1) 1 }

/-- Delta admissibility for a reachability relation: `D` constrains the
numeric deltas fed to `update` (non-numeric deltas are always allowed —
they are no-ops). -/
def deltaOK (D : ℝ → Prop) : JSDelta → Prop
  | .num r => D r
  | _ => True

/-- States reachable from the freshly constructed controller through
`update` calls (with numeric deltas satisfying `D`) interleaved with
arbitrary input writes. -/
inductive ReachableVia (D : ℝ → Prop) : State → Prop where
  | init : ReachableVia D initState
  | step {s} (d : JSDelta) : ReachableVia D s → deltaOK D d →
      ReachableVia D (updateJS d s)
  | inputs {s} (t y : ℝ) (b : Bool) : ReachableVia D s →
      ReachableVia D (setInputs s t y b)
  | invert {s} (b : Bool) : ReachableVia D s → ReachableVia D (setInvertY s b)
  | camMode {s} (m : ℕ) : ReachableVia D s → ReachableVia D (setCameraMode s m)
  | mouse {s} (dx dy : ℝ) : ReachableVia D s →
      ReachableVia D (handleMouseMove s dx dy)

/-- The step placed in an environment that also provides an elevation field
`height`. The reference `FlightController.update` body contains no call to
`getTerrainHeight` (unlike the superseded variant in `src/controls.js`), so
the elevation argument is simply never consulted. -/
noncomputable def stepWithTerrain (_height : ℝ → ℝ → ℝ) (s : State) (delta : ℝ) : State :=
  updateCore s delta

/-! ### Terrain: `SimplexNoise` constructor (`src/terrain.js`, lines 9–22)

The constructor runs on JavaScript numbers. We embed it over `ℚ`: for the
seeds considered in the theorems every intermediate value stays below 2⁵³ in
magnitude with a denominator of at most 2, so IEEE-754 double arithmetic is
exact and agrees with `ℚ`. `%` is the JS remainder (sign of the dividend,
truncated quotient; exact for doubles). `this.p` is a `Uint8Array(256)`:
reading it at a non-canonical index (non-integral, negative, or ≥ 256)
yields `undefined`, and writing there is silently dropped; storing
`undefined` at a valid index stores `ToUint8(NaN) = 0`. The destructuring
swap `[p[i], p[j]] = [p[j], p[i]]` evaluates the right side first. -/

/-- JS truncation toward zero. -/
def jsTrunc (q : ℚ) : ℤ := if 0 ≤ q then ⌊q⌋ else ⌈q⌉

/-- The JS `%` operator on finite numbers. -/
def jsMod (a b : ℚ) : ℚ := a - b * (jsTrunc (a / b) : ℚ)

/-- The shuffle loop `for (let i = 255; i > 0; i--)`, with the mutable
locals `p` (the table, a function `ℕ → ℕ` of byte values) and `n` threaded
as accumulator arguments and the loop variable as the recursion argument.
Each iteration at loop index `i` runs
`n = (n * 16807) % 2147483647; const j = n % (i + 1); swap p[i], p[j]`;
when `j` is not a canonical `Uint8Array` index (integral, `0 ≤ j < 256`)
the destructuring swap degrades to `p[i] = 0` as described above. -/
def shuffleGo (p : ℕ → ℕ) (n : ℚ) : ℕ → (ℕ → ℕ)
  | 0 => p
  | i + 1 =>
    let n' := jsMod (n * 16807) 2147483647
    let j := jsMod n' (((i + 1 : ℕ) : ℚ) + 1)
    if j.den = 1 ∧ 0 ≤ j.num ∧ j.num < 256 then
      shuffleGo
        (Function.update (Function.update p (i + 1) (p j.num.toNat)) j.num.toNat (p (i + 1)))
        n' i
    else
      shuffleGo (Function.update p (i + 1) 0) n' i

/-- The permutation table `this.p` after the constructor: start from the
identity table, seed `n = seed * 256`, run the shuffle from `i = 255`. -/
def pTable (seed : ℚ) : ℕ → ℕ := shuffleGo (fun k => k) (seed * 256) 255

/-- The duplicated table `this.perm`: `perm[i] = p[i & 255]` for `i < 512`. -/
def permTable (seed : ℚ) : ℕ → ℕ := fun i => pTable seed (i &&& 255)

/-- The 256 entries of a table are exactly a permutation of 0–255. -/
def IsPermTable (p : ℕ → ℕ) : Prop :=
  ∃ e : Equiv.Perm (Fin 256), ∀ k : Fin 256, p (k : ℕ) = ((e k : Fin 256) : ℕ)

/-! ### Terrain: `noise2D`, `fbm`, `getTerrainHeight` (lines 24–105) -/

/-- The gradient helper inside `noise2D`. -/
noncomputable def gradN (hash : ℕ) (x y : ℝ) : ℝ :=
  let h := hash &&& 7
  let u := if h < 4 then x else y
  let v := if h < 4 then y else x
  (if h &&& 1 ≠ 0 then -u else u) + (if h &&& 2 ≠ 0 then -(2 * v) else 2 * v)

/-- 2D simplex noise over a permutation table `perm` (the field `this.perm`
of the instance). `i & 255` on lattice coordinates is `ToInt32` followed by a
mask, i.e. the nonnegative residue mod 256. -/
noncomputable def noise2D (perm : ℕ → ℕ) (x y : ℝ) : ℝ :=
  let F2 : ℝ := 0.5 * (Real.sqrt 3 - 1)
  let G2 : ℝ := (3 - Real.sqrt 3) / 6
  let s := (x + y) * F2
  let i : ℤ := ⌊x + s⌋
  let j : ℤ := ⌊y + s⌋
  let t := ((i : ℝ) + (j : ℝ)) * G2
  let x0 := x - ((i : ℝ) - t)
  let y0 := y - ((j : ℝ) - t)
  let i1 : ℕ := if y0 < x0 then 1 else 0
  let j1 : ℕ := if y0 < x0 then 0 else 1
  let x1 := x0 - (i1 : ℝ) + G2
  let y1 := y0 - (j1 : ℝ) + G2
  let x2 := x0 - 1 + 2 * G2
  let y2 := y0 - 1 + 2 * G2
  let ii : ℕ := (i % 256).toNat
  let jj : ℕ := (j % 256).toNat
  let t0 := 0.5 - x0 * x0 - y0 * y0
  let n0 := if 0 ≤ t0 then t0 * t0 * (t0 * t0) * gradN (perm (ii + perm jj)) x0 y0 else 0
  let t1 := 0.5 - x1 * x1 - y1 * y1
  let n1 := if 0 ≤ t1 then
      t1 * t1 * (t1 * t1) * gradN (perm (ii + i1 + perm (jj + j1))) x1 y1
    else 0
  let t2 := 0.5 - x2 * x2 - y2 * y2
  let n2 := if 0 ≤ t2 then
      t2 * t2 * (t2 * t2) * gradN (perm (ii + 1 + perm (jj + 1))) x2 y2
    else 0
  70 * (n0 + n1 + n2)

/-- State of the `fbm` loop after `k` iterations:
`(value, amplitude, frequency, maxValue)`. -/
noncomputable def fbmAux (perm : ℕ → ℕ) (x y : ℝ) : ℕ → ℝ × ℝ × ℝ × ℝ
  | 0 => (0, 1, 1, 0)
  | k + 1 =>
    let r := fbmAux perm x y k
    (r.1 + r.2.1 * noise2D perm (x * r.2.2.1) (y * r.2.2.1),
     r.2.1 * 0.5, r.2.2.1 * 2, r.2.2.2 + r.2.1)

/-- Embeds `fbm(x, y, octaves)`. -/
noncomputable def fbm (perm : ℕ → ℕ) (x y : ℝ) (octaves : ℕ) : ℝ :=
  (fbmAux perm x y octaves).1 / (fbmAux perm x y octaves).2.2.2

/-- Embeds `getTerrainHeight(x, z)` over the table of the module noise instance. -/
noncomputable def getTerrainHeight (perm : ℕ → ℕ) (x z : ℝ) : ℝ :=
  let scale : ℝ := 0.002
  let height := fbm perm (x * scale) (z * scale) 6
  let base := height * 80
  let ridges := |noise2D perm (x * 0.001) (z * 0.001)| * 40
  base + ridges

/-! ### Helper lemmas on vector lengths -/

theorem Vec3.lengthSq_nonneg (v : Vec3) : 0 ≤ v.lengthSq := by
  simp only [Vec3.lengthSq]
  nlinarith [mul_self_nonneg v.x, mul_self_nonneg v.y, mul_self_nonneg v.z]

theorem Vec3.length_nonneg (v : Vec3) : 0 ≤ v.length := Real.sqrt_nonneg _

theorem Vec3.length_pos_of_ne_zero {v : Vec3} (hv : v ≠ Vec3.zero) : 0 < v.length := by
  have hsq : 0 < v.lengthSq := by
    rcases lt_or_eq_of_le (Vec3.lengthSq_nonneg v) with h | h
    · exact h
    · exfalso
      apply hv
      simp only [Vec3.lengthSq] at h
      have hx : v.x * v.x = 0 := by
        nlinarith [mul_self_nonneg v.x, mul_self_nonneg v.y, mul_self_nonneg v.z]
      have hy : v.y * v.y = 0 := by
        nlinarith [mul_self_nonneg v.x, mul_self_nonneg v.y, mul_self_nonneg v.z]
      have hz : v.z * v.z = 0 := by
        nlinarith [mul_self_nonneg v.x, mul_self_nonneg v.y, mul_self_nonneg v.z]
      rw [mul_self_eq_zero] at hx hy hz
      exact Vec3.ext_xyz (by simp [Vec3.zero, hx]) (by simp [Vec3.zero, hy])
        (by simp [Vec3.zero, hz])
  exact Real.sqrt_pos.mpr hsq

theorem Vec3.length_scale (c : ℝ) (v : Vec3) : (Vec3.scale c v).length = |c| * v.length := by
  simp only [Vec3.length, Vec3.scale, Vec3.lengthSq]
  rw [show c * v.x * (c * v.x) + c * v.y * (c * v.y) + c * v.z * (c * v.z)
      = c ^ 2 * (v.x * v.x + v.y * v.y + v.z * v.z) by ring]
  rw [Real.sqrt_mul (sq_nonneg c), Real.sqrt_sq_eq_abs]

theorem Vec3.scale_scale (a b : ℝ) (v : Vec3) :
    Vec3.scale a (Vec3.scale b v) = Vec3.scale (a * b) v := by
  simp only [Vec3.scale]
  exact Vec3.ext_xyz (by ring) (by ring) (by ring)

theorem Vec3.setLength_eq_scale {v : Vec3} (hv : v ≠ Vec3.zero) (l : ℝ) :
    v.setLength l = Vec3.scale (l * (1 / v.length)) v := by
  have hl := Vec3.length_pos_of_ne_zero hv
  simp only [Vec3.setLength, Vec3.normalize, if_neg (ne_of_gt hl)]
  exact Vec3.scale_scale l (1 / v.length) v

theorem Vec3.length_setLength {v : Vec3} (hv : v ≠ Vec3.zero) (l : ℝ) :
    (v.setLength l).length = |l| := by
  have hl := Vec3.length_pos_of_ne_zero hv
  rw [Vec3.setLength_eq_scale hv, Vec3.length_scale]
  rw [abs_mul, abs_of_pos (by positivity : (0:ℝ) < 1 / v.length)]
  field_simp

/-! ### Claim theorems -/

/-- C1: the speed clamp that runs right after the velocity integration
(`v += a·dt`) forces the stored velocity magnitude into
`[minSpeed, afterburnerSpeed × 1.1] = [70, 517]` for every nonzero input
vector, and whenever it changes the vector it only rescales it by a positive
factor (direction preserved); the stored velocity after the step is exactly the
clamp applied to the integrated velocity. -/
theorem speedClamp_bounds_and_direction :
    (∀ v : Vec3, v ≠ Vec3.zero →
      minSpeed ≤ (clampVelocity v).length ∧
      (clampVelocity v).length ≤ afterburnerSpeed * 1.1 ∧
      (clampVelocity v ≠ v → ∃ c : ℝ, 0 < c ∧ clampVelocity v = Vec3.scale c v)) ∧
    (∀ (s : State) (delta : ℝ),
      (updateCore s delta).velocity = clampVelocity (velInt s delta)) ∧
    minSpeed = 70 ∧ afterburnerSpeed * 1.1 = 517 := by
  refine ⟨?_, fun s delta => rfl, rfl, by norm_num [afterburnerSpeed]⟩
  intro v hv
  have hl := Vec3.length_pos_of_ne_zero hv
  simp only [clampVelocity]
  by_cases h1 : v.length < minSpeed
  · rw [if_pos h1]
    have hno : ¬ afterburnerSpeed * 1.1 < v.length := by
      simp only [minSpeed] at h1
      norm_num [afterburnerSpeed]
      linarith
    rw [if_neg hno]
    have hlen : (v.setLength minSpeed).length = |minSpeed| := Vec3.length_setLength hv _
    rw [hlen, abs_of_pos (by norm_num [minSpeed])]
    refine ⟨le_refl _, by norm_num [minSpeed, afterburnerSpeed], fun _ => ?_⟩
    exact ⟨minSpeed * (1 / v.length),
      mul_pos (by norm_num [minSpeed]) (by positivity), Vec3.setLength_eq_scale hv _⟩
  · rw [if_neg h1]
    by_cases h2 : afterburnerSpeed * 1.1 < v.length
    · rw [if_pos h2]
      have hlen : (v.setLength (afterburnerSpeed * 1.1)).length = |afterburnerSpeed * 1.1| :=
        Vec3.length_setLength hv _
      rw [hlen, abs_of_pos (by norm_num [afterburnerSpeed])]
      refine ⟨by norm_num [minSpeed, afterburnerSpeed], le_refl _, fun _ => ?_⟩
      exact ⟨afterburnerSpeed * 1.1 * (1 / v.length),
        mul_pos (by norm_num [afterburnerSpeed]) (by positivity),
        Vec3.setLength_eq_scale hv _⟩
    · rw [if_neg h2]
      exact ⟨le_of_not_lt h1, le_of_not_lt h2, fun hne => absurd rfl hne⟩

/-- Witness for C1 at the concrete vector `(0, 0, -1)` (rescaled up to the
floor) and the concrete step `initState`, `δ = 1/100`. -/
theorem speedClamp_bounds_and_direction_witness :
    (minSpeed ≤ (clampVelocity ⟨0, 0, -1⟩).length ∧
      (clampVelocity ⟨0, 0, -1⟩).length ≤ afterburnerSpeed * 1.1 ∧
      (clampVelocity ⟨0, 0, -1⟩ ≠ ⟨0, 0, -1⟩ →
        ∃ c : ℝ, 0 < c ∧ clampVelocity ⟨0, 0, -1⟩ = Vec3.scale c ⟨0, 0, -1⟩)) ∧
    (updateCore initState (1 / 100)).velocity = clampVelocity (velInt initState (1 / 100)) := by
  constructor
  · refine speedClamp_bounds_and_direction.1 ⟨0, 0, -1⟩ ?_
    intro h
    have hz : (-1 : ℝ) = 0 := congrArg Vec3.z h
    norm_num at hz
  · exact speedClamp_bounds_and_direction.2.1 initState (1 / 100)

/-- C2: a falsy (`0`, `NaN`, `undefined`) or non-finite (`±Infinity`) delta
makes `update` return before touching anything: the entire controller state
(vehicle pose, velocity, rates, sticks, throttle, fuel, telemetry, camera)
is unchanged and no error is raised (the step is a total function). -/
theorem update_noop_on_bad_delta :
    ∀ s : State,
      updateJS JSDelta.nan s = s ∧ updateJS (JSDelta.num 0) s = s ∧
      updateJS JSDelta.undef s = s ∧ updateJS JSDelta.posInf s = s ∧
      updateJS JSDelta.negInf s = s := by
  intro s
  refine ⟨rfl, ?_, rfl, rfl, rfl⟩
  simp [updateJS]

/-- C5: `getTerrainHeight(x, z)` is exactly
`fbm(0.002·x, 0.002·z, 6) · 80 + |noise2D(0.001·x, 0.001·z)| · 40`, the
ridge frequency 0.001 is strictly below the base scale 0.002, and the
function is pure: equal coordinates always give equal heights. -/
theorem getTerrainHeight_formula :
    (∀ (perm : ℕ → ℕ) (x z : ℝ),
      getTerrainHeight perm x z =
        fbm perm (x * 0.002) (z * 0.002) 6 * 80 +
          |noise2D perm (x * 0.001) (z * 0.001)| * 40) ∧
    ((0.001 : ℝ) < 0.002) ∧
    (∀ (perm : ℕ → ℕ) (x z x' z' : ℝ), x = x' → z = z' →
      getTerrainHeight perm x z = getTerrainHeight perm x' z') := by
  refine ⟨fun perm x z => rfl, by norm_num, ?_⟩
  intro perm x z x' z' hx hz
  rw [hx, hz]

/-- Witness for the purity clause of C5 at concrete coordinates. -/
theorem getTerrainHeight_formula_witness :
    getTerrainHeight (fun _ => 0) 3 4 = getTerrainHeight (fun _ => 0) 3 4 ∧
    getTerrainHeight (fun _ => 0) 3 4 =
      fbm (fun _ => 0) (3 * 0.002) (4 * 0.002) 6 * 80 +
        |noise2D (fun _ => 0) (3 * 0.001) (4 * 0.001)| * 40 :=
  ⟨getTerrainHeight_formula.2.2 (fun _ => 0) 3 4 3 4 rfl rfl,
   getTerrainHeight_formula.1 (fun _ => 0) 3 4⟩

/-- C9: the reference step never consults the elevation field — two runs
with arbitrary different elevation fields from the same state and delta
give the same post-step state — and no altitude clamp exists: for every
state and delta there is an elevation field whose surface lies strictly
above the post-step vehicle altitude at the matching horizontal
coordinates of the vehicle position. -/
theorem step_independent_of_terrain :
    (∀ (h₁ h₂ : ℝ → ℝ → ℝ) (s : State) (delta : ℝ),
      stepWithTerrain h₁ s delta = stepWithTerrain h₂ s delta) ∧
    (∀ (s : State) (delta : ℝ), ∃ height : ℝ → ℝ → ℝ,
      (stepWithTerrain height s delta).position.y <
        height (stepWithTerrain height s delta).position.x
          (stepWithTerrain height s delta).position.z) := by
  refine ⟨fun _ _ _ _ => rfl, fun s delta => ?_⟩
  exact ⟨fun _ _ => (updateCore s delta).position.y + 1, lt_add_one _⟩

/-- C10: the guard rejects exactly the falsy or non-finite deltas; every
nonzero finite delta — negative ones included — reaches the body, which
then integrates with `dt = min(delta, 0.05) = delta < 0`. Concretely, a
step with `delta = -1/100` from the initial state lowers the afterburner
fuel (the regeneration line `min(1, fuel + regen·dt)` runs backwards). -/
theorem negative_delta_reaches_body :
    (∀ r : ℝ, r ≠ 0 → ∀ s : State, updateJS (JSDelta.num r) s = updateCore s r) ∧
    (∀ s : State,
      updateJS (JSDelta.num 0) s = s ∧ updateJS JSDelta.nan s = s ∧
      updateJS JSDelta.undef s = s ∧ updateJS JSDelta.posInf s = s ∧
      updateJS JSDelta.negInf s = s) ∧
    (∀ r : ℝ, r < 0 → dtOf r = r) ∧
    (updateCore initState (-(1 / 100))).afterburnerFuel < initState.afterburnerFuel := by
  refine ⟨?_, ?_, ?_, ?_⟩
  · intro r hr s
    simp [updateJS, hr]
  · intro s
    exact ⟨by simp [updateJS], rfl, rfl, rfl, rfl⟩
  · intro r hr
    simp only [dtOf]
    exact min_eq_left (by linarith)
  · show fuel1 initState (-(1 / 100)) < initState.afterburnerFuel
    have hw : wantsAfterburner initState = false := by
      simp [wantsAfterburner, initState]
    have hdt : dtOf (-(1 / 100)) = -(1 / 100) := min_eq_left (by norm_num)
    simp only [fuel1]
    rw [hw, hdt]
    simp only [Bool.false_eq_true, if_false, initState, afterburnerRegenRate]
    rw [min_def]
    norm_num

/-- Witness for C10 at the concrete negative delta `-1/100`. -/
theorem negative_delta_reaches_body_witness :
    updateJS (JSDelta.num (-(1 / 100))) initState = updateCore initState (-(1 / 100)) ∧
    dtOf (-(1 / 100)) = -(1 / 100) :=
  ⟨negative_delta_reaches_body.1 (-(1 / 100)) (by norm_num) initState,
   negative_delta_reaches_body.2.2.1 (-(1 / 100)) (by norm_num)⟩

/-- C7: along every run whose numeric deltas are non-negative the
afterburner fuel stays in `[0, 1]`; each step re-evaluates the activation
condition `boost && fuel > 0.02` from scratch (no hysteresis) and either
burns fuel (floored at 0) or regenerates it (capped at 1). -/
theorem afterburner_fuel_invariant :
    (∀ s : State, ReachableVia (fun r => 0 ≤ r) s →
      0 ≤ s.afterburnerFuel ∧ s.afterburnerFuel ≤ 1) ∧
    (∀ (s : State) (delta : ℝ),
      (updateCore s delta).afterburnerActive
          = (s.boost && decide ((0.02 : ℝ) < s.afterburnerFuel)) ∧
      (updateCore s delta).afterburnerFuel =
        (if wantsAfterburner s then
          max 0 (s.afterburnerFuel - afterburnerBurnRate * dtOf delta)
         else min 1 (s.afterburnerFuel + afterburnerRegenRate * dtOf delta))) := by
  constructor
  · intro s h
    induction h with
    | init => norm_num [initState]
    | step d hrv hd ih =>
      cases d with
      | num r =>
        simp only [updateJS]
        split_ifs with hr
        · exact ih
        · have hdt : 0 ≤ dtOf r := le_min hd (by norm_num)
          show 0 ≤ fuel1 _ r ∧ fuel1 _ r ≤ 1
          simp only [fuel1]
          split_ifs with hw
          · refine ⟨le_max_left 0 _, max_le (by norm_num) ?_⟩
            have hb : 0 ≤ afterburnerBurnRate * dtOf r :=
              mul_nonneg (by norm_num [afterburnerBurnRate]) hdt
            linarith [ih.2]
          · refine ⟨le_min (by norm_num) ?_, min_le_left 1 _⟩
            have hb : 0 ≤ afterburnerRegenRate * dtOf r :=
              mul_nonneg (by norm_num [afterburnerRegenRate]) hdt
            linarith [ih.1]
      | nan => exact ih
      | posInf => exact ih
      | negInf => exact ih
      | undef => exact ih
    | inputs t y b hrv ih => exact ih
    | invert b hrv ih => exact ih
    | camMode m hrv ih => exact ih
    | mouse dx dy hrv ih => exact ih
  · exact fun s delta => ⟨rfl, rfl⟩

/-- Witness for C7 at the initial state and the concrete step `δ = 1/100`. -/
theorem afterburner_fuel_invariant_witness :
    (0 ≤ initState.afterburnerFuel ∧ initState.afterburnerFuel ≤ 1) ∧
    (updateCore initState (1 / 100)).afterburnerActive
      = (initState.boost && decide ((0.02 : ℝ) < initState.afterburnerFuel)) :=
  ⟨afterburner_fuel_invariant.1 initState ReachableVia.init,
   (afterburner_fuel_invariant.2 initState (1 / 100)).1⟩

/-- C8: when the angle of attack measured at the rate-command stage exceeds
`aoaLimit` the desired pitch rate is clamped to `min(·, 0)` (so it is
non-positive and cannot raise α further), and symmetrically below
`-aoaLimit` it is clamped to `max(·, 0)` — a one-sided clamp each way. -/
theorem aoa_limiter_one_sided :
    ∀ (s : State) (delta : ℝ),
      (aoaLimit < aoa0 s →
        desiredPitchRateL s delta = min (desiredPitchRate0 s delta) 0 ∧
        desiredPitchRateL s delta ≤ 0) ∧
      (aoa0 s < -aoaLimit →
        desiredPitchRateL s delta = max (desiredPitchRate0 s delta) 0 ∧
        0 ≤ desiredPitchRateL s delta) := by
  intro s delta
  have hL : 0 < aoaLimit := by
    simp only [aoaLimit, degToRad]
    positivity
  constructor
  · intro h
    have hno : ¬ aoa0 s < -aoaLimit := by linarith
    simp only [desiredPitchRateL, desiredPitchRateA]
    rw [if_neg hno, if_pos h]
    exact ⟨rfl, min_le_right _ 0⟩
  · intro h
    have hno : ¬ aoaLimit < aoa0 s := by linarith
    simp only [desiredPitchRateL, desiredPitchRateA]
    rw [if_pos h, if_neg hno]
    exact ⟨rfl, le_max_right _ 0⟩

/-- A state with the nose level but the velocity pitched 45° up in the
vehicle frame: `α = π/4`, well beyond the 18° limit. -/
noncomputable def aoaWitnessState : State := { initState with velocity := ⟨0, -260, -260⟩ }

theorem aoa0_aoaWitnessState : aoa0 aoaWitnessState = Real.pi / 4 := by
  have h1 : velLocal0 aoaWitnessState = ⟨0, -260, -260⟩ := by
    simp only [velLocal0, aoaWitnessState, initState, Quat.invert, Vec3.applyQuaternion]
    exact Vec3.ext_xyz (by norm_num) (by norm_num) (by norm_num)
  simp only [aoa0, h1]
  rw [show (-(-260 : ℝ)) = 260 by norm_num]
  rw [atan2, if_pos (by norm_num : (0 : ℝ) < 260)]
  rw [show (260 : ℝ) / 260 = 1 by norm_num]
  exact Real.arctan_one

/-- Witness for C8: at `aoaWitnessState` the AoA exceeds the limit and the
theorem yields a non-positive desired pitch rate. -/
theorem aoa_limiter_one_sided_witness :
    aoaLimit < aoa0 aoaWitnessState ∧ desiredPitchRateL aoaWitnessState (1 / 100) ≤ 0 := by
  have h : aoaLimit < aoa0 aoaWitnessState := by
    rw [aoa0_aoaWitnessState]
    simp only [aoaLimit, degToRad]
    linarith [Real.pi_pos]
  exact ⟨h, ((aoa_limiter_one_sided aoaWitnessState (1 / 100)).1 h).2⟩

/-- The orientation update of one valid step keeps the quaternion unit:
the three incremental axis-angle factors are built on the (unit) vehicle
axes, so each has unit norm, and the quaternion norm is multiplicative. -/
theorem quat1_normSq (s : State) (delta : ℝ) (hq : s.quaternion.normSq = 1) :
    (quat1 s delta).normSq = 1 := by
  have hbasis : ∀ b : Vec3, b.lengthSq = 1 →
      (Vec3.applyQuaternion b s.quaternion).lengthSq = 1 := fun b hb => by
    rw [Vec3.lengthSq_applyQuaternion _ _ hq, hb]
  have hr : (right0 s).lengthSq = 1 := hbasis _ (by norm_num [Vec3.lengthSq])
  have hu : (up0 s).lengthSq = 1 := hbasis _ (by norm_num [Vec3.lengthSq])
  have hf : (forward0 s).lengthSq = 1 := hbasis _ (by norm_num [Vec3.lengthSq])
  have hA : (quatA s delta).normSq = 1 := by
    simp only [quatA]
    split_ifs with h
    · rw [Quat.normSq_mul, hq, Quat.normSq_fromAxisAngle _ _ hr, mul_one]
    · exact hq
  have hB : (quatB s delta).normSq = 1 := by
    simp only [quatB]
    split_ifs with h
    · rw [Quat.normSq_mul, hA, Quat.normSq_fromAxisAngle _ _ hf, mul_one]
    · exact hA
  simp only [quat1]
  split_ifs with h
  · rw [Quat.normSq_mul, hB, Quat.normSq_fromAxisAngle _ _ hu, mul_one]
  · exact hB

/-- C3: every state reachable through guard-passing `update` calls (with
input writes interleaved) keeps the airplane orientation quaternion exactly
unit length under real arithmetic. -/
theorem unit_quaternion_invariant :
    ∀ s : State, ReachableVia (fun _ => True) s →
      s.quaternion.normSq = 1 ∧ s.quaternion.normQ = 1 := by
  intro s h
  suffices hsq : s.quaternion.normSq = 1 by
    exact ⟨hsq, by rw [Quat.normQ, hsq, Real.sqrt_one]⟩
  induction h with
  | init => norm_num [initState, Quat.normSq]
  | step d hrv hd ih =>
    cases d with
    | num r =>
      simp only [updateJS]
      split_ifs with hr
      · exact ih
      · exact quat1_normSq _ _ ih
    | nan => exact ih
    | posInf => exact ih
    | negInf => exact ih
    | undef => exact ih
  | inputs t y b hrv ih => exact ih
  | invert b hrv ih => exact ih
  | camMode m hrv ih => exact ih
  | mouse dx dy hrv ih => exact ih

/-- Witness for C3 at the freshly constructed controller. -/
theorem unit_quaternion_invariant_witness :
    initState.quaternion.normSq = 1 ∧ initState.quaternion.normQ = 1 :=
  unit_quaternion_invariant initState ReachableVia.init

/-! ### C4: the shuffle and the permutation table -/

/-- JS `%` on (embedded) naturals is the natural remainder. -/
theorem jsMod_natCast (a b : ℕ) (hb : 0 < b) :
    jsMod (a : ℚ) (b : ℚ) = ((a % b : ℕ) : ℚ) := by
  have hfl : jsTrunc ((a : ℚ) / (b : ℚ)) = ((a / b : ℕ) : ℤ) := by
    rw [jsTrunc, if_pos (by positivity), Rat.floor_natCast_div_natCast]
    exact (Int.ofNat_ediv a b).symm
  rw [jsMod, hfl, Int.cast_natCast]
  have hmd : ((a % b : ℕ) : ℚ) + ((b : ℕ) : ℚ) * ((a / b : ℕ) : ℚ) = ((a : ℕ) : ℚ) := by
    rw [← Nat.cast_mul, ← Nat.cast_add, Nat.mod_add_div a b]
  linarith

/-- The double update performed by a valid destructuring swap (right-hand
pair evaluated first) maps a permutation-enumerating table to a
permutation-enumerating table. -/
theorem update_swap_perm {p : ℕ → ℕ} {e : Equiv.Perm (Fin 256)}
    (hpe : ∀ x : Fin 256, p (x : ℕ) = ((e x : Fin 256) : ℕ))
    (i jn : ℕ) (hi : i < 256) (hjn_lt : jn < 256) :
    ∃ e' : Equiv.Perm (Fin 256), ∀ x : Fin 256,
      Function.update (Function.update p i (p jn)) jn (p i) (x : ℕ)
        = ((e' x : Fin 256) : ℕ) := by
  rcases eq_or_ne i jn with hij | hij
  · refine ⟨e, fun x => ?_⟩
    have hupd : Function.update (Function.update p i (p jn)) jn (p i) (x : ℕ)
        = p (x : ℕ) := by
      rw [← hij]
      rcases eq_or_ne ((x : ℕ)) i with hx | hx
      · rw [Function.update_apply, if_pos hx, hx]
      · rw [Function.update_apply, if_neg hx, Function.update_apply, if_neg hx]
    rw [hupd]
    exact hpe x
  · refine ⟨(Equiv.swap (⟨i, hi⟩ : Fin 256) ⟨jn, hjn_lt⟩).trans e, fun x => ?_⟩
    simp only [Equiv.trans_apply]
    rcases eq_or_ne ((x : ℕ)) jn with hxj | hxj
    · have hxv : x = ⟨jn, hjn_lt⟩ := Fin.ext hxj
      simp only [Function.update_apply, hxj, if_pos rfl]
      rw [hxv, Equiv.swap_apply_right]
      exact hpe ⟨i, hi⟩
    · have hswx : (Equiv.swap (⟨i, hi⟩ : Fin 256) ⟨jn, hjn_lt⟩) x =
        (if x = ⟨i, hi⟩ then ⟨jn, hjn_lt⟩ else x) := by
        rcases eq_or_ne x ⟨i, hi⟩ with hxi | hxi
        · rw [hxi, Equiv.swap_apply_left, if_pos rfl]
        · rw [Equiv.swap_apply_of_ne_of_ne hxi (fun hc => hxj (by rw [hc])), if_neg hxi]
      rw [hswx]
      rcases eq_or_ne x ⟨i, hi⟩ with hxi | hxi
      · rw [if_pos hxi]
        have hv : (x : ℕ) = i := by rw [hxi]
        rw [Function.update_apply, if_neg hxj, Function.update_apply, if_pos hv]
        exact hpe ⟨jn, hjn_lt⟩
      · rw [if_neg hxi]
        have hxi' : (x : ℕ) ≠ i := fun hc => hxi (Fin.ext hc)
        rw [Function.update_apply, if_neg hxj, Function.update_apply, if_neg hxi']
        exact hpe x

/-- Running the shuffle from index `i < 256` on an integral state keeps the
table a permutation: the index `j` of every iteration is then a genuine
`Uint8Array` index and the swap branch runs. -/
theorem shuffleGo_perm :
    ∀ i : ℕ, i < 256 → ∀ (p : ℕ → ℕ) (n : ℚ) (e : Equiv.Perm (Fin 256)) (m : ℕ),
      (∀ x : Fin 256, p (x : ℕ) = ((e x : Fin 256) : ℕ)) → n = (m : ℚ) →
      ∃ e' : Equiv.Perm (Fin 256),
        ∀ x : Fin 256, shuffleGo p n i (x : ℕ) = ((e' x : Fin 256) : ℕ) := by
  intro i
  induction i with
  | zero => exact fun _ p n e m hpe _ => ⟨e, hpe⟩
  | succ i ihs =>
    intro hi p n e m hpe hn
    have h16807 : (n * 16807 : ℚ) = ((m * 16807 : ℕ) : ℚ) := by rw [hn]; push_cast; ring
    have hn' : jsMod (n * 16807) 2147483647 = ((m * 16807 % 2147483647 : ℕ) : ℚ) := by
      rw [h16807]
      exact_mod_cast jsMod_natCast (m * 16807) 2147483647 (by norm_num)
    set m1 : ℕ := m * 16807 % 2147483647 with hm1
    have hcast : (((i + 1 : ℕ) : ℚ) + 1) = ((i + 2 : ℕ) : ℚ) := by push_cast; ring
    have hj : jsMod ((m1 : ℚ)) (((i + 1 : ℕ) : ℚ) + 1) = ((m1 % (i + 2) : ℕ) : ℚ) := by
      rw [hcast]
      exact jsMod_natCast m1 (i + 2) (by omega)
    set jn : ℕ := m1 % (i + 2) with hjn
    have hjn_lt : jn < 256 := by
      have := Nat.mod_lt m1 (show 0 < i + 2 by omega)
      omega
    have hguard : (((jn : ℕ) : ℚ).den = 1 ∧ 0 ≤ ((jn : ℕ) : ℚ).num ∧
        ((jn : ℕ) : ℚ).num < 256) := by
      refine ⟨Rat.den_natCast jn, ?_, ?_⟩
      · rw [Rat.num_natCast]; positivity
      · rw [Rat.num_natCast]; exact_mod_cast hjn_lt
    have htoNat : ((jn : ℕ) : ℚ).num.toNat = jn := by
      rw [Rat.num_natCast]; exact Int.toNat_natCast jn
    have hunf : shuffleGo p n (i + 1)
        = shuffleGo
            (Function.update (Function.update p (i + 1) (p jn)) jn (p (i + 1)))
            ((m1 : ℕ) : ℚ) i := by
      simp only [shuffleGo]
      rw [hn', hj, htoNat, if_pos hguard]
    obtain ⟨e1, he1⟩ := update_swap_perm hpe (i + 1) jn hi hjn_lt
    obtain ⟨e2, he2⟩ := ihs (by omega) _ ((m1 : ℕ) : ℚ) e1 m1 he1 rfl
    refine ⟨e2, fun x => ?_⟩
    rw [hunf]
    exact he2 x

/-- For every seed with integral scaled value, the constructed table holds
a permutation of 0–255. -/
theorem pTable_isPerm_of_integral (seed : ℚ) (k : ℕ) (hseed : seed * 256 = (k : ℚ)) :
    IsPermTable (pTable seed) := by
  obtain ⟨e', he'⟩ := shuffleGo_perm 255 (by norm_num) (fun k => k) (seed * 256)
    (Equiv.refl _) k (fun x => rfl) hseed
  exact ⟨e', he'⟩

theorem permTable_eq_mod (seed : ℚ) (i : ℕ) : permTable seed i = pTable seed (i % 256) := by
  show pTable seed (i &&& 255) = pTable seed (i % 256)
  have h := Nat.and_pow_two_sub_one_eq_mod i 8
  rw [show (2 : ℕ) ^ 8 - 1 = 255 by norm_num, show (2 : ℕ) ^ 8 = 256 by norm_num] at h
  rw [h]

theorem permutation_table :
    (∀ seed : ℚ, (∃ k : ℕ, k ≤ 2 ^ 31 ∧ seed * 256 = (k : ℚ)) →
      IsPermTable (pTable seed)) ∧
    (∀ seed : ℚ, ∀ i : ℕ, i < 512 → permTable seed i = pTable seed (i % 256)) :=
  ⟨fun seed h => pTable_isPerm_of_integral seed h.choose h.choose_spec.2,
   fun seed i _ => permTable_eq_mod seed i⟩

/-- Witness for C4 at the integral-scaled seed 3 (`3 * 256 = 768`). -/
theorem permutation_table_witness :
    IsPermTable (pTable 3) ∧ permTable 3 0 = pTable 3 (0 % 256) :=
  ⟨permutation_table.1 3 ⟨768, by norm_num, by norm_num⟩,
   permutation_table.2 3 0 (by norm_num)⟩

/-- An odd integer over 2 is not an integer, hence never has denominator 1:
such a `j` is not a canonical `Uint8Array` index. -/
theorem halfOdd_den_ne_one (a : ℤ) (ha : Odd a) : ((a : ℚ) / 2).den ≠ 1 := by
  intro hden
  have hnum := (Rat.den_eq_one_iff _).mp hden
  have ha2 : (a : ℚ) = 2 * ((a : ℚ) / 2).num := by
    rw [hnum]; ring
  have ha3 : a = 2 * ((a : ℚ) / 2).num := by exact_mod_cast ha2
  exact (Int.not_odd_iff_even.mpr ⟨((a : ℚ) / 2).num, by linarith⟩) ha

/-- With a state of the form odd/2 every remaining iteration degenerates to
`p[i] = 0` (reads at the non-integral `j` give `undefined`, stored as 0;
writes there are dropped), so the run zeroes entries `1 … i`. -/
theorem shuffleGo_halfOdd :
    ∀ (i : ℕ) (p : ℕ → ℕ) (n : ℚ) (m : ℤ), Odd m → n = (m : ℚ) / 2 →
      ∀ k : ℕ, shuffleGo p n i k = if 1 ≤ k ∧ k ≤ i then 0 else p k := by
  intro i
  induction i with
  | zero =>
    intro p n m hm hn k
    rw [if_neg (by omega)]
    rfl
  | succ i ihs =>
    intro p n m hm hn k
    set t1 : ℤ := jsTrunc (n * 16807 / 2147483647) with ht1
    have hstep1 : jsMod (n * 16807) 2147483647
        = ((16807 * m - 4294967294 * t1 : ℤ) : ℚ) / 2 := by
      rw [jsMod, ← ht1, hn]
      push_cast
      ring
    set m1 : ℤ := 16807 * m - 4294967294 * t1 with hm1
    have hm1odd : Odd m1 := by
      rcases hm with ⟨c, hc⟩
      exact ⟨16807 * c + 8403 - 2147483647 * t1, by rw [hm1, hc]; ring⟩
    set t2 : ℤ := jsTrunc (((m1 : ℚ) / 2) / (((i + 1 : ℕ) : ℚ) + 1)) with ht2
    have hstep2 : jsMod ((m1 : ℚ) / 2) (((i + 1 : ℕ) : ℚ) + 1)
        = ((m1 - 2 * ((i : ℤ) + 2) * t2 : ℤ) : ℚ) / 2 := by
      rw [jsMod, ← ht2]
      push_cast
      ring
    set m2 : ℤ := m1 - 2 * ((i : ℤ) + 2) * t2 with hm2
    have hm2odd : Odd m2 := by
      rcases hm1odd with ⟨c, hc⟩
      exact ⟨c - ((i : ℤ) + 2) * t2, by rw [hm2, hc]; ring⟩
    have hunf : shuffleGo p n (i + 1)
        = shuffleGo (Function.update p (i + 1) 0) ((m1 : ℚ) / 2) i := by
      simp only [shuffleGo]
      rw [hstep1, hstep2, if_neg]
      intro hguard
      exact halfOdd_den_ne_one m2 hm2odd hguard.1
    rw [hunf, ihs (Function.update p (i + 1) 0) _ m1 hm1odd rfl k]
    rcases Nat.lt_or_ge k 1 with hk0 | hk1
    · rw [if_neg (by omega), if_neg (by omega), Function.update_apply,
        if_neg (by omega)]
    · rcases Nat.lt_or_ge i k with hik | hik
      · rcases Nat.lt_or_ge (i + 1) k with hik1 | hik1
        · rw [if_neg (by omega), if_neg (by omega), Function.update_apply,
            if_neg (by omega)]
        · have hk : k = i + 1 := by omega
          rw [if_neg (by omega), if_pos (by omega), Function.update_apply, if_pos hk]
      · rw [if_pos (by omega), if_pos (by omega)]

/-- The table the runtime actually builds for seed `1/512` (scaled seed
`0.5`, a non-integral double, as `Math.random()` seeds almost surely are):
entries 1–255 are zeroed and entry 0 keeps its initial value 0. -/
theorem pTable_half (k : ℕ) :
    pTable (1 / 512) k = if 1 ≤ k ∧ k ≤ 255 then 0 else k := by
  have h : ((1 : ℚ) / 512) * 256 = ((1 : ℤ) : ℚ) / 2 := by norm_num
  show shuffleGo (fun k => k) ((1 : ℚ) / 512 * 256) 255 k = _
  rw [h]
  exact shuffleGo_halfOdd 255 _ _ 1 odd_one rfl k

/-! ### C6: the fbm loop -/

/-- Loop invariant of `fbm`: after `k` octaves the accumulators hold the
running geometric sums and the next amplitude/frequency. -/
theorem fbmAux_spec (perm : ℕ → ℕ) (x y : ℝ) : ∀ n : ℕ,
    (fbmAux perm x y n).1
        = ∑ i in Finset.range n, (0.5 : ℝ) ^ i * noise2D perm (2 ^ i * x) (2 ^ i * y) ∧
    (fbmAux perm x y n).2.1 = (0.5 : ℝ) ^ n ∧
    (fbmAux perm x y n).2.2.1 = (2 : ℝ) ^ n ∧
    (fbmAux perm x y n).2.2.2 = ∑ i in Finset.range n, (0.5 : ℝ) ^ i := by
  intro n
  induction n with
  | zero => refine ⟨?_, ?_, ?_, ?_⟩ <;> simp [fbmAux]
  | succ n ih =>
    obtain ⟨h1, h2, h3, h4⟩ := ih
    have e1 : (fbmAux perm x y (n + 1)).1
        = (fbmAux perm x y n).1 + (fbmAux perm x y n).2.1
            * noise2D perm (x * (fbmAux perm x y n).2.2.1)
              (y * (fbmAux perm x y n).2.2.1) := rfl
    have e2 : (fbmAux perm x y (n + 1)).2.1 = (fbmAux perm x y n).2.1 * 0.5 := rfl
    have e3 : (fbmAux perm x y (n + 1)).2.2.1 = (fbmAux perm x y n).2.2.1 * 2 := rfl
    have e4 : (fbmAux perm x y (n + 1)).2.2.2
        = (fbmAux perm x y n).2.2.2 + (fbmAux perm x y n).2.1 := rfl
    refine ⟨?_, ?_, ?_, ?_⟩
    · rw [e1, h1, h2, h3, Finset.sum_range_succ, mul_comm x ((2 : ℝ) ^ n),
        mul_comm y ((2 : ℝ) ^ n)]
    · rw [e2, h2, pow_succ]
    · rw [e3, h3, pow_succ]
    · rw [e4, h4, h2, Finset.sum_range_succ]

/-- The closed form of `fbm`. -/
theorem fbm_closed_form (perm : ℕ → ℕ) (x y : ℝ) (n : ℕ) :
    fbm perm x y n
      = (∑ i in Finset.range n, (0.5 : ℝ) ^ i * noise2D perm (2 ^ i * x) (2 ^ i * y))
        / (∑ i in Finset.range n, (0.5 : ℝ) ^ i) := by
  obtain ⟨h1, _, _, h4⟩ := fbmAux_spec perm x y n
  simp only [fbm]
  rw [h1, h4]

/-- C6 (amended): `fbm` is the amplitude-weighted sum of `noise2D` octaves
(lacunarity 2, persistence 0.5) normalized by the maximum amplitude sum;
its value lies in `[-1, 1]` whenever the `noise2D` value of every octave lies in
`[-1, 1]` (it is a convex combination of the octave values — but see the
counterexample: the 70-scaled `noise2D` itself is not bounded by 1). -/
theorem fbm_normalized_sum :
    (∀ (perm : ℕ → ℕ) (x y : ℝ) (n : ℕ), 1 ≤ n →
      fbm perm x y n
        = (∑ i in Finset.range n, (0.5 : ℝ) ^ i * noise2D perm (2 ^ i * x) (2 ^ i * y))
          / (∑ i in Finset.range n, (0.5 : ℝ) ^ i)) ∧
    (∀ (perm : ℕ → ℕ) (x y : ℝ) (n : ℕ), 1 ≤ n →
      (∀ i < n, |noise2D perm (2 ^ i * x) (2 ^ i * y)| ≤ 1) →
      |fbm perm x y n| ≤ 1) := by
  refine ⟨fun perm x y n _ => fbm_closed_form perm x y n, ?_⟩
  intro perm x y n hn hoct
  rw [fbm_closed_form, abs_div]
  have hden : (0 : ℝ) < ∑ i in Finset.range n, (0.5 : ℝ) ^ i :=
    Finset.sum_pos (fun i _ => by positivity) ⟨0, Finset.mem_range.mpr hn⟩
  rw [abs_of_pos hden, div_le_one hden]
  calc |∑ i in Finset.range n, (0.5 : ℝ) ^ i * noise2D perm (2 ^ i * x) (2 ^ i * y)|
      ≤ ∑ i in Finset.range n, |(0.5 : ℝ) ^ i * noise2D perm (2 ^ i * x) (2 ^ i * y)| :=
        Finset.abs_sum_le_sum_abs _ _
    _ ≤ ∑ i in Finset.range n, (0.5 : ℝ) ^ i := by
        refine Finset.sum_le_sum fun i hi => ?_
        rw [abs_mul, abs_of_pos (by positivity : (0 : ℝ) < (0.5 : ℝ) ^ i)]
        have h1 := hoct i (Finset.mem_range.mp hi)
        nlinarith [abs_nonneg (noise2D perm (2 ^ i * x) (2 ^ i * y)),
          pow_pos (by norm_num : (0 : ℝ) < 0.5) i]

/-- The gradient of any hash at the origin offset vanishes. -/
theorem gradN_zero_args (h : ℕ) : gradN h 0 0 = 0 := by
  simp only [gradN]
  split_ifs <;> norm_num

/-- Embeds `noise2D(0, 0) = 0` for every table: the origin-corner gradient takes
zero offsets and the two other corners lie outside the falloff radius. -/
theorem noise2D_at_zero (perm : ℕ → ℕ) : noise2D perm 0 0 = 0 := by
  have hr2 : Real.sqrt 3 ^ 2 = 3 := Real.sq_sqrt (by norm_num)
  have hrl : (1.7 : ℝ) < Real.sqrt 3 := by nlinarith [Real.sqrt_nonneg 3]
  have hru : Real.sqrt 3 < 1.8 := by nlinarith [Real.sqrt_nonneg 3]
  simp only [noise2D]
  norm_num [gradN_zero_args]
  have hc1 : ¬ ((-1 + (3 - Real.sqrt 3) / 6) * (-1 + (3 - Real.sqrt 3) / 6)
      ≤ 1 / 2 - (3 - Real.sqrt 3) / 6 * ((3 - Real.sqrt 3) / 6)) := by
    intro hc
    nlinarith [hr2]
  have hc2 : ¬ ((-1 + 2 * ((3 - Real.sqrt 3) / 6)) * (-1 + 2 * ((3 - Real.sqrt 3) / 6))
      ≤ 1 / 2 - (-1 + 2 * ((3 - Real.sqrt 3) / 6)) * (-1 + 2 * ((3 - Real.sqrt 3) / 6))) := by
    intro hc
    nlinarith [hr2]
  rw [if_neg hc1, if_neg hc2]
  norm_num

/-- Witness for C6 at one octave of the origin over the all-zero table. -/
theorem fbm_normalized_sum_witness :
    fbm (fun _ => 0) 0 0 1
        = (∑ i in Finset.range 1,
            (0.5 : ℝ) ^ i * noise2D (fun _ => 0) (2 ^ i * 0) (2 ^ i * 0))
          / (∑ i in Finset.range 1, (0.5 : ℝ) ^ i) ∧
    |fbm (fun _ => 0) 0 0 1| ≤ 1 := by
  have hoct : ∀ i < 1, |noise2D (fun _ : ℕ => 0) ((2 : ℝ) ^ i * 0) ((2 : ℝ) ^ i * 0)| ≤ 1 := by
    intro i _
    simp [noise2D_at_zero]
  exact ⟨fbm_normalized_sum.1 (fun _ => 0) 0 0 1 (le_refl 1),
    fbm_normalized_sum.2 (fun _ => 0) 0 0 1 (le_refl 1) hoct⟩

/-- The duplicated table for seed `1/512` is identically zero. -/
theorem permTable_half_zero (i : ℕ) : permTable (1 / 512) i = 0 := by
  show pTable (1 / 512) (i &&& 255) = 0
  rw [pTable_half]
  have hle : i &&& 255 ≤ 255 := Nat.and_le_right
  split_ifs with h
  · rfl
  · omega

/-- The hash-0 gradient is `x + 2y`. -/
theorem gradN_zero_hash (x y : ℝ) : gradN 0 x y = x + 2 * y := by
  simp only [gradN]
  norm_num

/- C6 counterexample core: over the zero table (the one the runtime
actually builds) the 70-scaled noise exceeds 1 at `(1/18, 1/9)`. -/
set_option maxHeartbeats 1600000 in
theorem noise2D_half_exceeds_one :
    1 < noise2D (permTable (1 / 512)) (1 / 18) (1 / 9) := by
  have hr2 : Real.sqrt 3 ^ 2 = 3 := Real.sq_sqrt (by norm_num)
  have hrl : (1.732 : ℝ) < Real.sqrt 3 := by nlinarith [Real.sqrt_nonneg 3]
  have hru : Real.sqrt 3 < 1.7321 := by nlinarith [Real.sqrt_nonneg 3]
  simp only [noise2D, permTable_half_zero, gradN_zero_hash]
  norm_num
  have hfi : (⌊(1 : ℝ) / 18 + 1 / 6 * (1 / 2 * (Real.sqrt 3 - 1))⌋ : ℤ) = 0 := by
    rw [Int.floor_eq_zero_iff, Set.mem_Ico]
    constructor
    · nlinarith
    · nlinarith
  have hfj : (⌊(1 : ℝ) / 9 + 1 / 6 * (1 / 2 * (Real.sqrt 3 - 1))⌋ : ℤ) = 0 := by
    rw [Int.floor_eq_zero_iff, Set.mem_Ico]
    constructor
    · nlinarith
    · nlinarith
  rw [hfi, hfj]
  norm_num
  have hc1 : ¬ ((-(8 / 9 : ℝ) + (3 - Real.sqrt 3) / 6) * (-(8 / 9) + (3 - Real.sqrt 3) / 6)
      ≤ 1 / 2 - (1 / 18 + (3 - Real.sqrt 3) / 6) * (1 / 18 + (3 - Real.sqrt 3) / 6)) := by
    intro hc
    nlinarith [hr2, hrl, hru]
  have hc2 : (-(8 / 9 : ℝ) + 2 * ((3 - Real.sqrt 3) / 6)) * (-(8 / 9) + 2 * ((3 - Real.sqrt 3) / 6))
      ≤ 1 / 2 - (-(17 / 18) + 2 * ((3 - Real.sqrt 3) / 6)) * (-(17 / 18) + 2 * ((3 - Real.sqrt 3) / 6)) := by
    nlinarith [hr2, hrl, hru]
  rw [if_neg hc1, if_pos hc2]
  set X : ℝ := -(17 / 18 : ℝ) + 2 * ((3 - Real.sqrt 3) / 6) with hX
  set Y : ℝ := -(8 / 9 : ℝ) + 2 * ((3 - Real.sqrt 3) / 6) with hY
  set T : ℝ := 1 / 2 - X * X - Y * Y with hT
  have hT0 : (0 : ℝ) ≤ T := by rw [hT, hX, hY]; nlinarith [hr2, hrl, hru]
  have hTu : T ≤ 1 / 96 := by rw [hT, hX, hY]; nlinarith [hr2, hrl, hru]
  have hGl : -(3 / 2 : ℝ) ≤ X + 2 * Y := by rw [hX, hY]; nlinarith [hr2, hrl, hru]
  have hGu : X + 2 * Y ≤ 0 := by rw [hX, hY]; nlinarith [hr2, hrl, hru]
  have hsq : T * T ≤ (1 / 96 : ℝ) * (1 / 96) := by nlinarith
  have hT4 : T * T * (T * T) ≤ (1 / 96 : ℝ) ^ 4 := by
    have hmul := mul_le_mul hsq hsq (mul_nonneg hT0 hT0)
      (by norm_num : (0 : ℝ) ≤ 1 / 96 * (1 / 96))
    nlinarith [hmul]
  have hT4nn : (0 : ℝ) ≤ T * T * (T * T) := mul_nonneg (mul_nonneg hT0 hT0) (mul_nonneg hT0 hT0)
  have hW : -(3 / 2 : ℝ) * (1 / 96) ^ 4 ≤ T * T * (T * T) * (X + 2 * Y) := by
    nlinarith [mul_nonneg hT4nn (by linarith : (0 : ℝ) ≤ X + 2 * Y + 3 / 2)]
  nlinarith [hW]

/-- C6 counterexample: with one octave `fbm` equals the single `noise2D`
value, and at the concrete input `(1/18, 1/9)` over the table built for
seed `1/512` it exceeds 1 — so the unconditional `[-1, 1]` bound fails. -/
theorem fbm_exceeds_one : 1 < fbm (permTable (1 / 512)) (1 / 18) (1 / 9) 1 := by
  rw [fbm_closed_form]
  simp only [Finset.sum_range_one, pow_zero, one_mul]
  rw [div_one]
  exact noise2D_half_exceeds_one

/-- C4 counterexample: for the concrete seed `1/512` the constructed table
is not a permutation of 0–255 (entries 0 and 1 are both 0). -/
theorem permutation_table_counterexample : ¬ IsPermTable (pTable (1 / 512)) := by
  rintro ⟨e, he⟩
  have h0 := he 0
  have h1 := he 1
  rw [pTable_half] at h0 h1
  have hv0 : ((0 : Fin 256) : ℕ) = 0 := rfl
  have hv1 : ((1 : Fin 256) : ℕ) = 1 := rfl
  rw [hv0] at h0
  rw [hv1] at h1
  norm_num at h0 h1
  have he01 : e 0 = e 1 := Fin.ext (by rw [← h0, ← h1])
  have : (0 : Fin 256) = 1 := e.injective he01
  exact absurd this (by decide)

end PF
